import Mathlib

/-!
Shallow embedding of the packet/link-layer coordination logic of
`fskmodem/modem.py` (class `Modem` and the minimodem stderr monitor).

Byte strings are modelled as `List Nat` (each element a byte value), Python
`float` values used for confidence figures and timestamps are modelled as `ℚ`,
and the Python substring operations `bytes.find`, `bytes.rfind` and the `in`
operator are modelled by explicit scanning functions below.  Each loop of the
source (`_rx_loop`, `_tx_loop`, `_stderr_loop`) is embedded as a function that
performs the body of one loop iteration on an explicit state.
-/

namespace Fskmodem

/-- Occurrence test: the byte string `sub` occurs in `s` at index `i`.
Mirrors the implicit notion used by Python `bytes.find`: an occurrence at `i`
requires `i + sub.length ≤ s.length` (for nonempty `sub`, a too-short tail
cannot compare equal to `sub`). -/
def occursAt (sub s : List Nat) (i : Nat) : Bool :=
  (s.drop i).take sub.length == sub

/-- Scan for the first occurrence of `sub` in `s` at an index `≥ start`,
examining at most `fuel` candidate indices. -/
def findFrom (sub s : List Nat) (start : Nat) : Nat → Option Nat
  | 0 => none
  | fuel + 1 =>
    if occursAt sub s start then some start else findFrom sub s (start + 1) fuel

/-- Python `s.find(sub, start)` restricted to found/not-found as an `Option`:
the least index `i ≥ start` at which `sub` occurs in `s`, if any.  Scanning up
to index `s.length` covers all possible occurrences. -/
def pyFind (sub s : List Nat) (start : Nat) : Option Nat :=
  findFrom sub s start (s.length + 1 - start)

/-- Python `s.find(sub, start)` with its actual `-1`-on-failure convention,
as an integer.  The source compares this result with other indices
(`if end > start`), which silently treats `-1` as "less than any index". -/
def pyFindI (sub s : List Nat) (start : Nat) : Int :=
  match pyFind sub s start with
  | some k => (k : Int)
  | none => -1

/-- Python `sub in s` (substring containment), equivalent to
`s.find(sub) != -1`. -/
def containsSub (sub s : List Nat) : Bool :=
  (pyFind sub s 0).isSome

/-- Scan downward from index `i` for the last occurrence of `sub` in `s`. -/
def rfindAux (sub s : List Nat) : Nat → Option Nat
  | 0 => if occursAt sub s 0 then some 0 else none
  | i + 1 => if occursAt sub s (i + 1) then some (i + 1) else rfindAux sub s i

/-- Python `s.rfind(sub)` restricted to found/not-found as an `Option`: the
greatest index at which `sub` occurs in `s`, if any. -/
def pyRFind (sub s : List Nat) : Option Nat :=
  rfindAux sub s s.length

/-- Framing flag `HDLC.START = b'|>'` (bytes 0x7C 0x3E). -/
def START : List Nat := [124, 62]

/-- Framing flag `HDLC.STOP = b'<|'` (bytes 0x3C 0x7C). -/
def STOP : List Nat := [60, 124]

/-- `Modem.send_bytes` framing: `data = HDLC.START + data + HDLC.STOP`. -/
def wrap (data : List Nat) : List Nat := START ++ (data ++ STOP)

/-- Validation performed by `Modem._receive_next` on a single received byte:
`data.decode('utf-8')` on a one-byte string succeeds exactly when the byte is
below 0x80 (any byte ≥ 0x80 is either an invalid UTF-8 start byte or the
start of a multi-byte sequence that a one-byte input cannot complete, raising
`UnicodeDecodeError`). -/
def utf8SingleOk (b : Nat) : Bool := b < 128

/-- `Modem._receive_next`: read one byte from the receive subprocess; a byte
that fails the single-byte UTF-8 decode is replaced by the empty contribution
`b''` (receiver noise). -/
def receiveNext (b : Nat) : List Nat :=
  if utf8SingleOk b then [b] else []

/-- Mutable state consulted and updated by one `Modem._rx_loop` iteration:
the local `data_buffer` together with the shared `_rx_confidence` and
`_rx_confidence_timestamp` fields. -/
structure RxState where
  buffer : List Nat
  conf : ℚ
  confTs : ℚ
deriving Repr, DecidableEq

/-- Result of one `Modem._rx_loop` iteration: the packet (with its confidence
value) handed to `_process_rx_callback`, if any, plus the updated state. -/
structure RxResult where
  delivered : Option (List Nat × ℚ)
  state : RxState
deriving Repr, DecidableEq

/-- Tail of every `_rx_loop` iteration (modem.py lines 645-649): discard the
confidence sample if it is nonzero and older than 100 ms
(`self._rx_confidence != 0 and self._rx_confidence_timestamp < time.time() - 0.1`). -/
def finishRx (d : Option (List Nat × ℚ)) (buf2 : List Nat) (c t now : ℚ) : RxResult :=
  if c ≠ 0 ∧ t < now - 1 / 10 then ⟨d, ⟨buf2, 0, 0⟩⟩ else ⟨d, ⟨buf2, c, t⟩⟩

/-- One iteration of `Modem._rx_loop` (modem.py lines 602-652).

`input` is the contribution of `self._receive_next()` appended to the buffer.
`arrival` models a confidence sample concurrently written by `_stderr_loop`
while the delivery path sits in its up-to-100 ms wait loop (lines 620-623):
that wait runs only when `self._rx_confidence_timestamp == 0`, and on delivery
the value of `self._rx_confidence` at the end of the wait is passed to the
callback.  `now` is the value of `time.time()` for this iteration.

Branch by branch this mirrors the source: find `START`; find `STOP` from just
after it (`-1` when absent, compared as an integer); deliver or drop by MTU;
on delimiter disorder cut the buffer after the start index; with no `STOP`
and an over-long buffer cut at the last `START`; with no `START` and a buffer
longer than `10 * len(START)` clear the buffer.  Every branch ends with the
stale confidence check of `finishRx`. -/
def rxStep (mtu : Nat) (st : RxState) (input : List Nat) (arrival : Option (ℚ × ℚ)) (now : ℚ) :
    RxResult :=
  let buf := st.buffer ++ input
  if containsSub START buf then
    if containsSub STOP buf then
      let fstart := (pyFind START buf 0).getD 0 + START.length
      let e := pyFindI STOP buf fstart
      if (fstart : Int) < e then
        let data := (buf.drop fstart).take (e.toNat - fstart)
        let buf2 := buf.drop (e.toNat + STOP.length)
        if data.length ≤ mtu then
          let confDel := if st.confTs = 0 then (arrival.getD (st.conf, st.confTs)).1 else st.conf
          finishRx (some (data, confDel)) buf2 0 0 now
        else
          finishRx none buf2 st.conf st.confTs now
      else
        finishRx none (buf.drop (fstart + START.length)) st.conf st.confTs now
    else
      if 1024 < buf.length then
        finishRx none (buf.drop ((pyRFind START buf).getD 0)) st.conf st.confTs now
      else
        finishRx none buf st.conf st.confTs now
  else
    if 10 * START.length < buf.length then
      finishRx none [] st.conf st.confTs now
    else
      finishRx none buf st.conf st.confTs now

/-- Result of one `Modem._tx_loop` iteration: the byte strings handed to
`self._tx.send` in order, the number of `_toggle_ptt` invocations, the
accumulated `tx_bit_count`, the computed `tx_duration` (when a burst was
transmitted), and the remaining transmit buffer. -/
structure TxResult where
  sent : List (List Nat)
  pttToggles : Nat
  txBitCount : Nat
  txDuration : Option ℚ
  buffer : List (List Nat)
deriving Repr, DecidableEq

/-- Drain loop of `Modem._tx_loop` (modem.py lines 676-683):
`while len(self._tx_buffer) > 0: data = self._tx_buffer.pop(0);
self._tx.send(data); tx_bit_count += len(data) * 8`.  Returns the sent
items in order and the final bit count. -/
def txDrain : List (List Nat) → Nat → List (List Nat) × Nat
  | [], bits => ([], bits)
  | d :: rest, bits =>
    let r := txDrain rest (bits + d.length * 8)
    (d :: r.1, r.2)

/-- One iteration of `Modem._tx_loop` (modem.py lines 656-706).

`carrier1` is the value of `self.carrier_sense` at the first check (line 659)
and `carrier2` its value after the random collision-avoidance delay
(line 667); both aborts leave the buffer untouched and send nothing.  On a
burst, the whole buffer is drained in FIFO order, the bit count gains the
`16 * (8 + 2)` sync preamble overhead when `self.sync_byte` is configured,
and `tx_duration = tx_bit_count / self.baudrate * 1.3 + 0.5`
(the empirical constants 1.3 and 0.5 are exact as `13/10` and `1/2` in `ℚ`). -/
def txStep (carrier1 carrier2 : Bool) (txBuffer : List (List Nat))
    (syncByte : Option (List Nat)) (baudrate : ℚ) : TxResult :=
  if carrier1 then ⟨[], 0, 0, none, txBuffer⟩
  else if 0 < txBuffer.length then
    if carrier2 then ⟨[], 0, 0, none, txBuffer⟩
    else
      let dr := txDrain txBuffer 0
      let bits := dr.2 + (if syncByte.isSome then 16 * (8 + 2) else 0)
      ⟨dr.1, 2, bits, some (((bits : ℚ) / baudrate) * (13 / 10) + 1 / 2), []⟩
  else ⟨[], 0, 0, none, txBuffer⟩

/-- Runtime type of the `carrier_confidence` local variable of
`Modem._stderr_loop`, which persists across iterations of its `while` loop:
initially unbound, it becomes a byte string after the token extraction
(`data.split(b'=')[1]`) and a float after a successful
`float(carrier_confidence.decode('utf-8'))`. -/
inductive ConfBinding where
  | unbound : ConfBinding
  | bytesVal : List Nat → ConfBinding
  | floatVal : ℚ → ConfBinding
deriving Repr, DecidableEq

/-- State consulted and updated by the carrier-event processing of
`Modem._stderr_loop`: the shared `carrier_sense`, `_rx_confidence` and
`_rx_confidence_timestamp` fields together with the loop-local
`carrier_confidence` binding. -/
structure MonitorState where
  carrierSense : Bool
  conf : ℚ
  confTs : ℚ
  binding : ConfBinding
deriving Repr, DecidableEq

/-- The ASCII whitespace bytes removed by Python `bytes.strip()`. -/
def isPySpace (b : Nat) : Bool :=
  b == 32 || b == 9 || b == 10 || b == 13 || b == 11 || b == 12

/-- Python `bytes.strip()`: remove leading and trailing ASCII whitespace. -/
def pyStrip (s : List Nat) : List Nat :=
  ((s.dropWhile isPySpace).reverse.dropWhile isPySpace).reverse

/-- The byte string `b'confidence'`. -/
def CONFIDENCE : List Nat := [99, 111, 110, 102, 105, 100, 101, 110, 99, 101]

/-- The byte string `b'CARRIER'`. -/
def CARRIER_EV : List Nat := [67, 65, 82, 82, 73, 69, 82]

/-- The byte string `b'NOCARRIER'`. -/
def NOCARRIER_EV : List Nat := [78, 79, 67, 65, 82, 82, 73, 69, 82]

/-- The token search of `Modem._stderr_loop` (lines 741-745): the first
space-separated token of the event containing `b'confidence'` as a substring
(`if b'confidence' in data: ...; break`). -/
def findConfidenceTok : List (List Nat) → Option (List Nat)
  | [] => none
  | d :: rest => if containsSub CONFIDENCE d then some d else findConfidenceTok rest

/-- Carrier-event processing of one captured event of `Modem._stderr_loop`
(modem.py lines 727-754), from `carrier_event = stderr_buffer[...].strip()`
through the `try`/`except` that records the confidence sample.

`raw` is the byte slice captured between the `###` markers.  `pf` models the
composite `float((·).decode('utf-8'))`: `none` when either the UTF-8 decode
or the float conversion raises (both are caught by the bare `except`).
`Except.error ()` models an exception escaping the loop body: the only such
exception is the `IndexError` from `data.split(b'=')[1]` (line 744) when a
token containing `b'confidence'` has no `b'='`, which sits outside the
`try` block.  When no token contains `b'confidence'`, the `try` block runs on
the *previous* binding of `carrier_confidence`: unbound raises `NameError`
and a float raises `AttributeError` (no `.decode`), both caught, so only a
still-bytes binding is re-parsed. -/
def processCarrierEvent (pf : List Nat → Option ℚ) (st : MonitorState) (raw : List Nat)
    (now : ℚ) : Except Unit MonitorState :=
  let toks := (pyStrip raw).splitOn 32
  let evType := toks.headD []
  if evType = CARRIER_EV then
    .ok { st with carrierSense := true }
  else if evType = NOCARRIER_EV then
    let st1 : MonitorState := { st with carrierSense := false }
    match findConfidenceTok toks with
    | some tok =>
      match tok.splitOn 61 with
      | _ :: v :: _ =>
        match pf v with
        | some c => .ok { st1 with binding := .floatVal c, conf := c, confTs := now }
        | none => .ok { st1 with binding := .bytesVal v }
      | _ => .error ()
    | none =>
      match st1.binding with
      | .bytesVal s =>
        match pf s with
        | some c => .ok { st1 with binding := .floatVal c, conf := c, confTs := now }
        | none => .ok st1
      | _ => .ok st1
  else .ok st

/-- A `carrier_confidence` binding on which the `try` block of
`_stderr_loop` cannot succeed: this holds for every binding the loop can
actually reach, because a byte-string binding that parses is immediately
rebound to its float value. -/
def bindingSafe (pf : List Nat → Option ℚ) : ConfBinding → Prop
  | .bytesVal s => pf s = none
  | _ => True

/-- A parse function for witnesses: every byte string fails to parse. -/
def pfNone : List Nat → Option ℚ := fun _ => none

/-! ### Properties of the substring-search primitives -/

theorem occursAt_lt_length {sub s : List Nat} {k : Nat} (hne : sub ≠ [])
    (h : occursAt sub s k = true) : k < s.length := by
  by_contra hk
  push_neg at hk
  have hdrop : s.drop k = [] := List.drop_eq_nil_of_le hk
  rw [occursAt, hdrop, List.take_nil] at h
  exact hne (beq_iff_eq.mp h).symm

theorem occursAt_false_of_le {sub s : List Nat} {i : Nat} (hne : sub ≠ [])
    (h : s.length ≤ i) : occursAt sub s i = false := by
  by_contra hocc
  rw [Bool.not_eq_false] at hocc
  exact absurd (occursAt_lt_length hne hocc) (by omega)

theorem findFrom_eq_some {sub s : List Nat} {k : Nat} :
    ∀ start fuel, start ≤ k → k < start + fuel → occursAt sub s k = true →
    (∀ i, start ≤ i → i < k → occursAt sub s i = false) →
    findFrom sub s start fuel = some k := by
  intro start fuel
  induction fuel generalizing start with
  | zero => intro h1 h2 _ _; omega
  | succ n ih =>
    intro h1 h2 hocc hmin
    by_cases hes : start = k
    · subst hes
      simp [findFrom, hocc]
    · have hlt : start < k := by omega
      have hfalse : occursAt sub s start = false := hmin start le_rfl hlt
      simp only [findFrom, hfalse, Bool.false_eq_true, if_false]
      exact ih (start + 1) (by omega) (by omega) hocc (fun i hi1 hi2 => hmin i (by omega) hi2)

theorem findFrom_none_imp {sub s : List Nat} :
    ∀ start fuel, findFrom sub s start fuel = none →
    ∀ i, start ≤ i → i < start + fuel → occursAt sub s i = false := by
  intro start fuel
  induction fuel generalizing start with
  | zero => intro _ i h1 h2; omega
  | succ n ih =>
    intro hnone i h1 h2
    rw [findFrom] at hnone
    by_cases hocc : occursAt sub s start = true
    · simp [hocc] at hnone
    · rw [Bool.not_eq_true] at hocc
      simp only [hocc, Bool.false_eq_true, if_false] at hnone
      by_cases hi : i = start
      · exact hi ▸ hocc
      · exact ih (start + 1) hnone i (by omega) (by omega)

theorem pyFind_eq_some {sub s : List Nat} {start k : Nat} (hne : sub ≠ [])
    (h1 : start ≤ k) (hocc : occursAt sub s k = true)
    (hmin : ∀ i, start ≤ i → i < k → occursAt sub s i = false) :
    pyFind sub s start = some k := by
  have hk := occursAt_lt_length hne hocc
  exact findFrom_eq_some start (s.length + 1 - start) h1 (by omega) hocc hmin

theorem containsSub_of_occurs {sub s : List Nat} {k : Nat} (hne : sub ≠ [])
    (hocc : occursAt sub s k = true) : containsSub sub s = true := by
  have hk := occursAt_lt_length hne hocc
  rw [containsSub]
  cases hfind : pyFind sub s 0 with
  | some j => rfl
  | none =>
    have := findFrom_none_imp 0 (s.length + 1 - 0) hfind k (by omega) (by omega)
    rw [hocc] at this
    exact absurd this (by simp)

theorem rfindAux_eq_some {sub s : List Nat} {k : Nat} :
    ∀ i, k ≤ i → occursAt sub s k = true →
    (∀ j, k < j → occursAt sub s j = false) →
    rfindAux sub s i = some k := by
  intro i
  induction i with
  | zero =>
    intro h1 hocc _
    have : k = 0 := by omega
    subst this
    simp [rfindAux, hocc]
  | succ n ih =>
    intro h1 hocc hmax
    by_cases hk : k = n + 1
    · subst hk
      simp [rfindAux, hocc]
    · have hfal : occursAt sub s (n + 1) = false := hmax (n + 1) (by omega)
      simp only [rfindAux, hfal, Bool.false_eq_true, if_false]
      exact ih (by omega) hocc hmax

theorem pyRFind_eq_some {sub s : List Nat} {k : Nat} (hne : sub ≠ [])
    (hocc : occursAt sub s k = true)
    (hmax : ∀ j, k < j → occursAt sub s j = false) :
    pyRFind sub s = some k :=
  rfindAux_eq_some s.length (Nat.le_of_lt (occursAt_lt_length hne hocc)) hocc hmax

theorem occursAt_prefix_exact (pre sub post : List Nat) :
    occursAt sub (pre ++ (sub ++ post)) pre.length = true := by
  rw [occursAt, List.drop_left, List.take_left]
  exact beq_self_eq_true sub

theorem occursAt_stop_payload {q : List Nat} (rest : List Nat)
    (hq : ∀ b ∈ q, b ≠ 60) {j : Nat} (hj : j < q.length) :
    occursAt STOP (START ++ (q ++ rest)) (START.length + j) = false := by
  have hdrop1 : (START ++ (q ++ rest)).drop (START.length + j) = (q ++ rest).drop j :=
    List.drop_append j
  have hdrop2 : (q ++ rest).drop j = q.drop j ++ rest :=
    List.drop_append_of_le_length (by omega)
  have hcons : q.drop j = q[j] :: q.drop (j + 1) := List.drop_eq_getElem_cons hj
  have key : (START ++ (q ++ rest)).drop (START.length + j) = q[j] :: (q.drop (j + 1) ++ rest) := by
    rw [hdrop1, hdrop2, hcons]
    rfl
  rw [occursAt, key]
  have hsplit : ∀ (z : Nat) (l : List Nat),
      ((z :: l).take STOP.length == STOP) = ((z == 60) && (l.take 1 == [124])) :=
    fun z l => rfl
  rw [hsplit]
  have hne60 : q[j] ≠ 60 := hq _ (List.getElem_mem hj)
  simp [hne60]

/-! ### Locating the delimiters of a well-formed frame -/

theorem pyFind_start_zero (x : List Nat) : pyFind START (START ++ x) 0 = some 0 := by
  have hocc : occursAt START (START ++ x) 0 = true := by
    have := occursAt_prefix_exact [] START x
    simpa using this
  exact pyFind_eq_some (by simp [START]) (Nat.le_refl 0) hocc (by omega)

theorem pyFind_stop_after_payload (q rest : List Nat) (hq : ∀ b ∈ q, b ≠ 60) :
    pyFind STOP (START ++ (q ++ (STOP ++ rest))) START.length =
      some (START.length + q.length) := by
  have hocc : occursAt STOP (START ++ (q ++ (STOP ++ rest))) (START.length + q.length) = true := by
    have := occursAt_prefix_exact (START ++ q) STOP rest
    rw [List.length_append, List.append_assoc] at this
    exact this
  refine pyFind_eq_some (by simp [STOP]) (by omega) hocc ?_
  intro i hi1 hi2
  have hj : i - START.length < q.length := by
    simp [START] at hi1 hi2 ⊢
    omega
  have := occursAt_stop_payload (STOP ++ rest) hq hj
  have hieq : START.length + (i - START.length) = i := by
    simp [START] at hi1 ⊢
    omega
  rwa [hieq] at this

/-- Core of one `_rx_loop` iteration on a buffer that starts with a
well-formed frame around a delimiter-free payload `q`: the frame is located,
cut out, delivered or dropped by the MTU comparison, and the buffer advances
exactly past the `STOP` marker. -/
theorem rxStep_frame (mtu : Nat) (st : RxState) (input q rest : List Nat) (now : ℚ)
    (arrival : Option (ℚ × ℚ)) (hbuf : st.buffer ++ input = START ++ (q ++ (STOP ++ rest)))
    (hq0 : 0 < q.length) (hq60 : ∀ b ∈ q, b ≠ 60) :
    rxStep mtu st input arrival now =
      if q.length ≤ mtu then
        finishRx (some (q, if st.confTs = 0 then (arrival.getD (st.conf, st.confTs)).1
          else st.conf)) rest 0 0 now
      else
        finishRx none rest st.conf st.confTs now := by
  have hstart := pyFind_start_zero (q ++ (STOP ++ rest))
  have hstop := pyFind_stop_after_payload q rest hq60
  have hcstart : containsSub START (START ++ (q ++ (STOP ++ rest))) = true := by
    rw [containsSub, hstart]
    rfl
  have hcstop : containsSub STOP (START ++ (q ++ (STOP ++ rest))) = true := by
    have hocc : occursAt STOP (START ++ (q ++ (STOP ++ rest))) (START.length + q.length) = true := by
      have := occursAt_prefix_exact (START ++ q) STOP rest
      rw [List.length_append, List.append_assoc] at this
      exact this
    exact containsSub_of_occurs (by simp [STOP]) hocc
  have hdata : ((START ++ (q ++ (STOP ++ rest))).drop START.length).take
      ((START.length + q.length) - START.length) = q := by
    rw [List.drop_left, Nat.add_sub_cancel_left]
    exact List.take_left' rfl
  have hbuf2 : (START ++ (q ++ (STOP ++ rest))).drop ((START.length + q.length) + STOP.length)
      = rest := by
    have hshape : START ++ (q ++ (STOP ++ rest)) = (START ++ (q ++ STOP)) ++ rest := by
      simp [List.append_assoc]
    rw [hshape]
    refine List.drop_left' ?_
    simp [START, STOP]
    omega
  simp only [rxStep, hbuf, hcstart, hcstop, hstart, Option.getD_some, Nat.zero_add,
    pyFindI, hstop, if_true]
  have hlt : ((START.length : Nat) : Int) < ((START.length + q.length : Nat) : Int) := by
    simp only [Int.ofNat_lt]
    omega
  rw [if_pos hlt]
  simp only [Int.toNat_ofNat]
  rw [hdata, hbuf2]

@[simp] theorem finishRx_delivered (d : Option (List Nat × ℚ)) (b : List Nat) (c t now : ℚ) :
    (finishRx d b c t now).delivered = d := by
  rw [finishRx]
  split <;> rfl

@[simp] theorem finishRx_buffer (d : Option (List Nat × ℚ)) (b : List Nat) (c t now : ℚ) :
    (finishRx d b c t now).state.buffer = b := by
  rw [finishRx]
  split <;> rfl

theorem finishRx_zero (d : Option (List Nat × ℚ)) (b : List Nat) (now : ℚ) :
    finishRx d b 0 0 now = ⟨d, ⟨b, 0, 0⟩⟩ := by
  rw [finishRx]
  split <;> simp_all

/-! ### Confidence-state invariant: a zero timestamp means an absent sample -/

theorem rxStep_conf_inv (mtu : Nat) (st : RxState) (input : List Nat)
    (arrival : Option (ℚ × ℚ)) (now : ℚ) (hinv : st.confTs = 0 → st.conf = 0) :
    (rxStep mtu st input arrival now).state.confTs = 0 →
    (rxStep mtu st input arrival now).state.conf = 0 := by
  simp only [rxStep, finishRx]
  split_ifs <;> simp_all

theorem processCarrierEvent_conf_inv (pf : List Nat → Option ℚ) (st : MonitorState)
    (raw : List Nat) (now : ℚ) (st' : MonitorState) (hnow : now ≠ 0)
    (hinv : st.confTs = 0 → st.conf = 0)
    (hok : processCarrierEvent pf st raw now = .ok st') :
    st'.confTs = 0 → st'.conf = 0 := by
  rw [processCarrierEvent] at hok
  split_ifs at hok
  · cases hok
    exact hinv
  · dsimp only at hok
    repeat' split at hok
    all_goals cases hok
    all_goals try exact hinv
    all_goals exact fun h => absurd h hnow
  · cases hok
    exact hinv

/-! ### Claim theorems -/

/-- Claim C1: for every byte sequence `p` with `0 < len(p) ≤ MTU` containing
no delimiter-marker bytes (`|` = 124, `>` = 62, `<` = 60), wrapping `p` with
`HDLC.START`/`HDLC.STOP` as in `Modem.send_bytes` and running the `_rx_loop`
extraction on exactly those wrapped bytes from an empty buffer delivers
exactly `p` to the callback, with the buffer advanced past the `STOP` marker
(to empty). -/
theorem roundTripFraming (mtu : Nat) (p : List Nat) (c t now : ℚ)
    (arrival : Option (ℚ × ℚ)) (h0 : 0 < p.length) (hmtu : p.length ≤ mtu)
    (hm : ∀ b ∈ p, b ≠ 124 ∧ b ≠ 62 ∧ b ≠ 60) :
    ∃ confv : ℚ, rxStep mtu ⟨[], c, t⟩ (wrap p) arrival now =
      ⟨some (p, confv), ⟨[], 0, 0⟩⟩ := by
  refine ⟨if t = 0 then (arrival.getD (c, t)).1 else c, ?_⟩
  have hq60 : ∀ b ∈ p, b ≠ 60 := fun b hb => (hm b hb).2.2
  have hbuf : (RxState.mk [] c t).buffer ++ wrap p = START ++ (p ++ (STOP ++ [])) := by
    simp [wrap]
  rw [rxStep_frame mtu ⟨[], c, t⟩ (wrap p) p [] now arrival hbuf h0 hq60, if_pos hmtu,
    finishRx_zero]

/-- Witness for C1 at `p = [65]`, `mtu = 500`, empty confidence state. -/
theorem roundTripFraming_witness :
    ∃ confv : ℚ, rxStep 500 ⟨[], 0, 0⟩ (wrap [65]) none 0 =
      ⟨some ([65], confv), ⟨[], 0, 0⟩⟩ :=
  roundTripFraming 500 [65] 0 0 0 none (by decide) (by decide) (by decide)

/-- Claim C3: a well-formed frame whose payload `q` exceeds the MTU is never
delivered and is not truncated — the iteration delivers nothing — yet the
buffer still advances past that frame's `STOP` marker, so a subsequent valid
frame (`wrap p`) in the same stream is still delivered by a later iteration. -/
theorem oversizedDrop (mtu : Nat) (q p : List Nat) (c t now now' : ℚ)
    (ar ar' : Option (ℚ × ℚ)) (hq : mtu < q.length)
    (hqm : ∀ b ∈ q, b ≠ 124 ∧ b ≠ 62 ∧ b ≠ 60)
    (hp0 : 0 < p.length) (hpmtu : p.length ≤ mtu)
    (hpm : ∀ b ∈ p, b ≠ 124 ∧ b ≠ 62 ∧ b ≠ 60) :
    (rxStep mtu ⟨[], c, t⟩ (wrap q ++ wrap p) ar now).delivered = none ∧
    (rxStep mtu ⟨[], c, t⟩ (wrap q ++ wrap p) ar now).state.buffer = wrap p ∧
    ∃ confv : ℚ,
      (rxStep mtu (rxStep mtu ⟨[], c, t⟩ (wrap q ++ wrap p) ar now).state [] ar' now').delivered
        = some (p, confv) := by
  have hq60 : ∀ b ∈ q, b ≠ 60 := fun b hb => (hqm b hb).2.2
  have hp60 : ∀ b ∈ p, b ≠ 60 := fun b hb => (hpm b hb).2.2
  have hbuf1 : (RxState.mk [] c t).buffer ++ (wrap q ++ wrap p)
      = START ++ (q ++ (STOP ++ wrap p)) := by
    simp [wrap]
  have hstep1 := rxStep_frame mtu ⟨[], c, t⟩ (wrap q ++ wrap p) q (wrap p) now ar hbuf1
    (by omega) hq60
  rw [if_neg (by omega)] at hstep1
  rw [hstep1]
  refine ⟨finishRx_delivered _ _ _ _ _, finishRx_buffer _ _ _ _ _, ?_⟩
  set st2 := (finishRx none (wrap p) c t now).state with hst2
  have hbuf2 : st2.buffer ++ ([] : List Nat) = START ++ (p ++ (STOP ++ [])) := by
    rw [hst2, finishRx_buffer]
    simp [wrap]
  have hstep2 := rxStep_frame mtu st2 [] p [] now' ar' hbuf2 hp0 hp60
  rw [if_pos hpmtu] at hstep2
  rw [hstep2, finishRx_zero]
  exact ⟨_, rfl⟩

/-- Witness for C3 at `mtu = 1`, oversized `q = [65, 66]`, valid `p = [67]`. -/
theorem oversizedDrop_witness :
    (rxStep 1 ⟨[], 0, 0⟩ (wrap [65, 66] ++ wrap [67]) none 0).delivered = none ∧
    (rxStep 1 ⟨[], 0, 0⟩ (wrap [65, 66] ++ wrap [67]) none 0).state.buffer = wrap [67] ∧
    ∃ confv : ℚ,
      (rxStep 1 (rxStep 1 ⟨[], 0, 0⟩ (wrap [65, 66] ++ wrap [67]) none 0).state [] none 0).delivered
        = some ([67], confv) :=
  oversizedDrop 1 [65, 66] [67] 0 0 0 0 none none (by decide) (by decide) (by decide)
    (by decide) (by decide)

/-- Claim C4: when a frame completes, the `_rx_loop` delivery (modem.py lines
617-628) behaves as follows.  With a live confidence sample
(`_rx_confidence_timestamp ≠ 0` — recency within 100 ms is maintained
separately by the per-iteration expiry, C5), the packet is delivered with
that sample's value.  With no sample (`timestamp = 0`), the loop waits up to
100 ms: if a sample arrives during the wait it is delivered with the packet;
if none arrives the packet is delivered with the default value 0 (the
hypothesis `c = 0` is the reachable-state invariant `confTs = 0 → conf = 0`,
preserved by `rxStep_conf_inv` and `processCarrierEvent_conf_inv`).  In all
cases both confidence fields are reset to 0 immediately after delivery, so
the sample cannot attach to a subsequent packet. -/
theorem confidenceCorrelation (mtu : Nat) (p : List Nat) (c t now : ℚ)
    (arrival : Option (ℚ × ℚ)) (h0 : 0 < p.length) (hmtu : p.length ≤ mtu)
    (hm : ∀ b ∈ p, b ≠ 124 ∧ b ≠ 62 ∧ b ≠ 60) :
    (t ≠ 0 → rxStep mtu ⟨[], c, t⟩ (wrap p) arrival now = ⟨some (p, c), ⟨[], 0, 0⟩⟩) ∧
    (t = 0 → ∀ v ts', arrival = some (v, ts') →
      rxStep mtu ⟨[], c, t⟩ (wrap p) arrival now = ⟨some (p, v), ⟨[], 0, 0⟩⟩) ∧
    (t = 0 → c = 0 → arrival = none →
      rxStep mtu ⟨[], c, t⟩ (wrap p) arrival now = ⟨some (p, 0), ⟨[], 0, 0⟩⟩) := by
  have hq60 : ∀ b ∈ p, b ≠ 60 := fun b hb => (hm b hb).2.2
  have hbuf : (RxState.mk [] c t).buffer ++ wrap p = START ++ (p ++ (STOP ++ [])) := by
    simp [wrap]
  have hstep := rxStep_frame mtu ⟨[], c, t⟩ (wrap p) p [] now arrival hbuf h0 hq60
  rw [if_pos hmtu, finishRx_zero] at hstep
  refine ⟨?_, ?_, ?_⟩
  · intro ht
    rw [hstep, if_neg ht]
  · intro ht v ts' harr
    rw [hstep, if_pos ht, harr]
    rfl
  · intro ht hc harr
    rw [hstep, if_pos ht, harr, hc]
    rfl

/-- Witness for C4 at `p = [65]`, exercising the live-sample conjunct with
sample value `5/2` and the no-sample conjuncts. -/
theorem confidenceCorrelation_witness :
    rxStep 500 ⟨[], 5/2, 3⟩ (wrap [65]) none 3 = ⟨some ([65], 5/2), ⟨[], 0, 0⟩⟩ ∧
    rxStep 500 ⟨[], 0, 0⟩ (wrap [65]) (some (7/2, 3)) 3 = ⟨some ([65], 7/2), ⟨[], 0, 0⟩⟩ ∧
    rxStep 500 ⟨[], 0, 0⟩ (wrap [65]) none 3 = ⟨some ([65], 0), ⟨[], 0, 0⟩⟩ :=
  ⟨(confidenceCorrelation 500 [65] (5/2) 3 3 none (by decide) (by decide) (by decide)).1
      (by norm_num),
   (confidenceCorrelation 500 [65] 0 0 3 (some (7/2, 3)) (by decide) (by decide) (by decide)).2.1
      rfl (7/2) 3 rfl,
   (confidenceCorrelation 500 [65] 0 0 3 none (by decide) (by decide) (by decide)).2.2
      rfl rfl rfl⟩

/-- Counterexample to claim C5 as stated.  The expiry check (modem.py line
647) requires `self._rx_confidence != 0`, so a confidence sample with value
`0` — recorded when a `NOCARRIER confidence=0.0` event parses `float('0.0')`,
first conjunct — keeps its nonzero timestamp: with such a sample more than
100 ms old and no delivery, the next iteration leaves the timestamp at
`1/100` instead of resetting it to 0 (second and third conjuncts). -/
theorem staleExpiryCounterexample :
    (processCarrierEvent (fun _ => some 0) ⟨true, 0, 0, .unbound⟩
        (NOCARRIER_EV ++ (32 :: (CONFIDENCE ++ [61, 48, 46, 48]))) (1/100)
      = .ok ⟨false, 0, 1/100, .floatVal 0⟩) ∧
    ((1 : ℚ)/100 < 1 - 1/10) ∧
    rxStep 500 ⟨[], 0, 1/100⟩ [] none 1 = ⟨none, ⟨[], 0, 1/100⟩⟩ := by
  refine ⟨rfl, by norm_num, ?_⟩
  rfl

/-- Claim C5 (amended): for every state holding a confidence sample with
*nonzero* value whose timestamp is more than 100 ms in the past, the
receive-loop iteration ends with the sample cleared (value and timestamp 0),
whether the clearing happens through the expiry check or through a delivery
reset.  (The unamended claim fails for zero-valued samples, whose timestamp
survives: `staleExpiryCounterexample`.) -/
theorem staleConfidenceExpiry (mtu : Nat) (st : RxState) (input : List Nat)
    (arrival : Option (ℚ × ℚ)) (now : ℚ)
    (hc : st.conf ≠ 0) (hts : st.confTs < now - 1/10) :
    (rxStep mtu st input arrival now).state.conf = 0 ∧
    (rxStep mtu st input arrival now).state.confTs = 0 := by
  simp only [rxStep, finishRx]
  split_ifs <;> simp_all

/-- Witness for C5 (amended) at a stale sample `(5/2, 1/100)` and `now = 1`. -/
theorem staleConfidenceExpiry_witness :
    (rxStep 500 ⟨[], 5/2, 1/100⟩ [] none 1).state.conf = 0 ∧
    (rxStep 500 ⟨[], 5/2, 1/100⟩ [] none 1).state.confTs = 0 :=
  staleConfidenceExpiry 500 ⟨[], 5/2, 1/100⟩ [] none 1 (by norm_num) (by norm_num)

/-- Claim C7: when a `START` marker is found (first occurrence at index `i`)
and a `STOP` marker is present in the buffer but the `STOP` found at or after
the payload start is not strictly past it (`end ≤ start`, which in the source
also covers `find` returning `-1` for "no STOP at or after start"), the
iteration delivers nothing and discards the buffer through
`data_buffer[start + len(HDLC.START):]`, i.e. keeps the suffix starting at
`i + 2 * len(START)`. -/
theorem malformedResync (mtu : Nat) (st : RxState) (arrival : Option (ℚ × ℚ))
    (now : ℚ) (i : Nat)
    (hfind : pyFind START st.buffer 0 = some i)
    (hstop : containsSub STOP st.buffer = true)
    (hle : pyFindI STOP st.buffer (i + START.length) ≤ ((i + START.length : Nat) : Int)) :
    (rxStep mtu st [] arrival now).delivered = none ∧
    (rxStep mtu st [] arrival now).state.buffer
      = st.buffer.drop (i + 2 * START.length) := by
  have hcstart : containsSub START st.buffer = true := by
    rw [containsSub, hfind]
    rfl
  have hdrop : i + START.length + START.length = i + 2 * START.length := by omega
  simp only [rxStep, List.append_nil, hcstart, hstop, hfind, Option.getD_some, if_true,
    if_neg (not_lt.mpr hle), hdrop, finishRx_delivered, finishRx_buffer]
  exact ⟨trivial, trivial⟩

/-- Witness for C7: buffer `b'<||>'` (STOP before START); the iteration
clears the buffer and delivers nothing. -/
theorem malformedResync_witness :
    (rxStep 500 ⟨[60, 124, 124, 62], 0, 0⟩ [] none 0).delivered = none ∧
    (rxStep 500 ⟨[60, 124, 124, 62], 0, 0⟩ [] none 0).state.buffer
      = [60, 124, 124, 62].drop (2 + 2 * START.length) :=
  malformedResync 500 ⟨[60, 124, 124, 62], 0, 0⟩ none 0 2 (by decide) (by decide) (by decide)

/-- Claim C8: with at least one `START` marker and no `STOP` marker in the
buffer, a buffer longer than 1024 bytes is cut back to the suffix beginning
at the last (rightmost) `START` occurrence `k`; a buffer of length ≤ 1024 is
left unchanged.  No packet is delivered either way. -/
theorem bufferBoundRecovery (mtu : Nat) (st : RxState) (arrival : Option (ℚ × ℚ))
    (now : ℚ) (k : Nat)
    (hstart : containsSub START st.buffer = true)
    (hstop : containsSub STOP st.buffer = false)
    (hk : occursAt START st.buffer k = true)
    (hmax : ∀ j, k < j → occursAt START st.buffer j = false) :
    (rxStep mtu st [] arrival now).delivered = none ∧
    (rxStep mtu st [] arrival now).state.buffer
      = (if 1024 < st.buffer.length then st.buffer.drop k else st.buffer) := by
  have hrf : pyRFind START st.buffer = some k :=
    pyRFind_eq_some (by simp [START]) hk hmax
  simp only [rxStep, List.append_nil, hstart, hstop, if_true, Bool.false_eq_true, if_false,
    hrf, Option.getD_some]
  split_ifs <;> exact ⟨finishRx_delivered _ _ _ _ _, finishRx_buffer _ _ _ _ _⟩

/-- Witness for C8: buffer `b'|>'` (one START at index 0, no STOP, short
buffer) is left unchanged. -/
theorem bufferBoundRecovery_witness :
    (rxStep 500 ⟨[124, 62], 0, 0⟩ [] none 0).delivered = none ∧
    (rxStep 500 ⟨[124, 62], 0, 0⟩ [] none 0).state.buffer
      = (if 1024 < ([124, 62] : List Nat).length then ([124, 62] : List Nat).drop 0
          else [124, 62]) :=
  bufferBoundRecovery 500 ⟨[124, 62], 0, 0⟩ none 0 0 (by decide) (by decide) (by decide)
    (fun j hj => by
      rcases Nat.lt_or_ge j 3 with h3 | h3
      · interval_cases j <;> decide
      · exact occursAt_false_of_le (by decide) (by simpa using by omega))

/-- Claim C2: whenever `carrier_sense` is observed true by the transmit loop
— either at the top-of-iteration check or at the re-check after the
collision-avoidance delay — the iteration writes nothing to the outbound
stream, performs no PTT toggle (no burst begins), and leaves the queue
untouched, regardless of how many packets are queued. -/
theorem carrierGating (c2 : Bool) (txBuffer : List (List Nat))
    (syncByte : Option (List Nat)) (baudrate : ℚ) :
    ((txStep true c2 txBuffer syncByte baudrate).sent = [] ∧
     (txStep true c2 txBuffer syncByte baudrate).pttToggles = 0 ∧
     (txStep true c2 txBuffer syncByte baudrate).buffer = txBuffer) ∧
    ((txStep false true txBuffer syncByte baudrate).sent = [] ∧
     (txStep false true txBuffer syncByte baudrate).pttToggles = 0 ∧
     (txStep false true txBuffer syncByte baudrate).buffer = txBuffer) := by
  by_cases h : 0 < txBuffer.length <;> simp [txStep, h]

theorem txDrain_eq (l : List (List Nat)) :
    ∀ bits, txDrain l bits = (l, bits + (l.map (fun d => d.length * 8)).sum) := by
  induction l with
  | nil => intro bits; simp [txDrain]
  | cons d rest ih =>
    intro bits
    simp only [txDrain, ih (bits + d.length * 8), List.map_cons, List.sum_cons, Nat.add_assoc]

/-- Claim C9: for a transmission burst draining a queue of wrapped packets,
the accumulated `tx_bit_count` is the sum over the packets of
`8 × len(wrapped packet)` plus exactly `16 * (8 + 2) = 160` extra bits when a
sync byte is configured, and the PTT hold duration is
`tx_bit_count / baudrate * 1.3 + 0.5` seconds (`1.3` and `0.5` exact as
`13/10` and `1/2`). -/
theorem txBurstBitAccounting (ps : List (List Nat)) (syncByte : Option (List Nat))
    (baudrate : ℚ) (hne : ps ≠ []) :
    (txStep false false (ps.map wrap) syncByte baudrate).txBitCount
      = (ps.map (fun p => (wrap p).length * 8)).sum
        + (if syncByte.isSome then 16 * (8 + 2) else 0) ∧
    (txStep false false (ps.map wrap) syncByte baudrate).txDuration
      = some ((((txStep false false (ps.map wrap) syncByte baudrate).txBitCount : ℚ) / baudrate)
          * (13 / 10) + 1 / 2) := by
  have hlen : 0 < (ps.map wrap).length := by
    simp [List.length_map]
    exact List.length_pos.mpr hne
  simp only [txStep, if_pos hlen, Bool.false_eq_true, if_false, txDrain_eq, Nat.zero_add,
    List.map_map]
  refine ⟨?_, ?_⟩ <;> simp [Function.comp_def]

/-- Witness for C9 at one packet `[65]`, sync byte configured, baudrate 300:
the wrapped packet is 5 bytes, so the bit count is `40 + 160 = 200`. -/
theorem txBurstBitAccounting_witness :
    (txStep false false ([[65]].map wrap) (some [35]) 300).txBitCount
      = ([[65]].map (fun p => (wrap p).length * 8)).sum + (if (some [35]).isSome then 16 * (8 + 2) else 0) ∧
    (txStep false false ([[65]].map wrap) (some [35]) 300).txDuration
      = some ((((txStep false false ([[65]].map wrap) (some [35]) 300).txBitCount : ℚ) / 300)
          * (13 / 10) + 1 / 2) :=
  txBurstBitAccounting [[65]] (some [35]) 300 (by decide)

/-! ### Delivered packets are slices of the received buffer -/

theorem rxStep_subset (mtu : Nat) (st : RxState) (input : List Nat)
    (arrival : Option (ℚ × ℚ)) (now : ℚ) :
    (rxStep mtu st input arrival now).state.buffer ⊆ st.buffer ++ input ∧
    ∀ d cv, (rxStep mtu st input arrival now).delivered = some (d, cv) →
      d ⊆ st.buffer ++ input := by
  simp only [rxStep]
  split_ifs
  all_goals simp only [finishRx_delivered, finishRx_buffer]
  all_goals refine ⟨?_, ?_⟩
  all_goals try exact List.drop_subset _ _
  all_goals try exact fun x hx => hx
  all_goals try exact fun x hx => absurd hx (List.not_mem_nil x)
  all_goals intro d cv hd
  all_goals try simp at hd
  all_goals obtain ⟨hd1, hd2⟩ := hd
  all_goals subst hd1
  all_goals exact fun x hx => List.drop_subset _ _ (List.take_subset _ _ hx)

/-- Claim C10: `_receive_next` validates each received byte by decoding it
alone as UTF-8, so any byte `≥ 0x80` contributes nothing and never enters the
receive buffer; consequently, starting from a buffer of bytes `< 0x80`, the
buffer stays all-ASCII and every packet delivered to the receive callback
consists only of bytes `< 0x80`. -/
theorem asciiOnlyDelivery (mtu : Nat) (st : RxState) (b : Nat)
    (arrival : Option (ℚ × ℚ)) (now : ℚ) (hbuf : ∀ x ∈ st.buffer, x < 128) :
    (128 ≤ b → receiveNext b = []) ∧
    (∀ x ∈ (rxStep mtu st (receiveNext b) arrival now).state.buffer, x < 128) ∧
    (∀ d cv, (rxStep mtu st (receiveNext b) arrival now).delivered = some (d, cv) →
      ∀ x ∈ d, x < 128) := by
  have hrecv : ∀ x ∈ receiveNext b, x < 128 := by
    intro x hx
    rw [receiveNext] at hx
    split_ifs at hx with hok
    · rw [List.mem_singleton] at hx
      subst hx
      simpa [utf8SingleOk] using hok
    · exact absurd hx (List.not_mem_nil x)
  have hall : ∀ x ∈ st.buffer ++ receiveNext b, x < 128 := by
    intro x hx
    rcases List.mem_append.mp hx with h | h
    · exact hbuf x h
    · exact hrecv x h
  obtain ⟨hsub, hdel⟩ := rxStep_subset mtu st (receiveNext b) arrival now
  refine ⟨?_, ?_, ?_⟩
  · intro hb
    have hnot : ¬ b < 128 := by omega
    simp [receiveNext, utf8SingleOk, hnot]
  · exact fun x hx => hall x (hsub hx)
  · exact fun d cv hd x hx => hall x (hdel d cv hd hx)

/-- Witness for C10 at byte `b = 200 ≥ 0x80` and empty buffer. -/
theorem asciiOnlyDelivery_witness :
    (128 ≤ 200 → receiveNext 200 = []) ∧
    (∀ x ∈ (rxStep 500 ⟨[], 0, 0⟩ (receiveNext 200) none 0).state.buffer, x < 128) ∧
    (∀ d cv, (rxStep 500 ⟨[], 0, 0⟩ (receiveNext 200) none 0).delivered = some (d, cv) →
      ∀ x ∈ d, x < 128) :=
  asciiOnlyDelivery 500 ⟨[], 0, 0⟩ 200 none 0 (by simp)

/-- Counterexample to claim C6 as stated: the claim asserts the monitor loop
does not crash when the confidence token is absent or unparseable, but a
`NOCARRIER` event carrying a token that contains `b'confidence'` with no
`b'='` (here the event `b'NOCARRIER confidence'`) makes
`data.split(b'=')[1]` (modem.py line 744) raise an uncaught `IndexError` —
that indexing sits outside the `try` block — crashing the loop. -/
theorem monitorCrashCounterexample :
    processCarrierEvent pfNone ⟨false, 0, 0, .unbound⟩
      (NOCARRIER_EV ++ (32 :: CONFIDENCE)) 1 = .error () := rfl

/-- Claim C6 (amended): processing a `CARRIER` event sets the carrier flag
and touches nothing else.  Processing a `NOCARRIER` event clears the carrier
flag, and then: if some token contains `b'confidence'` and has a `b'='`, a
successful float parse of the text after the first `b'='` records a new
confidence sample `(value, now)` overwriting any prior sample, while a parse
failure leaves the prior sample untouched; if such a token has no `b'='` the
loop crashes with an uncaught `IndexError` (see
`monitorCrashCounterexample`); if no token contains `b'confidence'`, the
prior sample is left untouched and no crash occurs (the `bindingSafe`
hypothesis is the reachable-state invariant that a leftover byte-string
binding of `carrier_confidence` is one whose parse already failed, preserved
by `processCarrierEvent_binding_inv`). -/
theorem carrierEventProcessing (pf : List Nat → Option ℚ) (st : MonitorState)
    (raw : List Nat) (now : ℚ) :
    (((pyStrip raw).splitOn 32).headD [] = CARRIER_EV →
      processCarrierEvent pf st raw now = .ok { st with carrierSense := true }) ∧
    (((pyStrip raw).splitOn 32).headD [] = NOCARRIER_EV →
      (∀ tok, findConfidenceTok ((pyStrip raw).splitOn 32) = some tok →
        (∀ r1 v r2, tok.splitOn 61 = r1 :: (v :: r2) →
          (∀ cq : ℚ, pf v = some cq →
            processCarrierEvent pf st raw now = .ok ⟨false, cq, now, .floatVal cq⟩) ∧
          (pf v = none →
            processCarrierEvent pf st raw now
              = .ok ⟨false, st.conf, st.confTs, .bytesVal v⟩)) ∧
        ((tok.splitOn 61).length = 1 →
          processCarrierEvent pf st raw now = .error ())) ∧
      (findConfidenceTok ((pyStrip raw).splitOn 32) = none → bindingSafe pf st.binding →
        processCarrierEvent pf st raw now = .ok ⟨false, st.conf, st.confTs, st.binding⟩)) := by
  have hne : (NOCARRIER_EV = CARRIER_EV) = False := by
    simp [NOCARRIER_EV, CARRIER_EV]
  constructor
  · intro hty
    simp only [processCarrierEvent, hty, if_pos]
  · intro hty
    refine ⟨?_, ?_⟩
    · intro tok hfind
      refine ⟨?_, ?_⟩
      · intro r1 v r2 hsplit
        refine ⟨?_, ?_⟩
        · intro cq hpf
          simp only [processCarrierEvent, hty, hne, if_false, if_pos, hfind, hsplit, hpf]
        · intro hpf
          simp only [processCarrierEvent, hty, hne, if_false, if_pos, hfind, hsplit, hpf]
      · intro hlen
        match hsp : tok.splitOn 61 with
        | [] => simp [hsp] at hlen
        | [x] =>
          simp only [processCarrierEvent, hty, hne, if_false, if_pos, hfind, hsp]
        | x :: y :: r => simp [hsp] at hlen
    · intro hfind hsafe
      simp only [processCarrierEvent, hty, hne, if_false, if_pos, hfind]
      cases hb : st.binding with
      | unbound => rfl
      | floatVal q => rfl
      | bytesVal s =>
        have hpf : pf s = none := by
          rw [bindingSafe.eq_def, hb] at hsafe
          exact hsafe
        simp only [hpf]

/-- The reachable-binding invariant for C6: every event that completes
without crashing keeps `carrier_confidence` in a state on which the
`try` block cannot spuriously succeed later (unbound, a float, or bytes
whose parse already failed). -/
theorem processCarrierEvent_binding_inv (pf : List Nat → Option ℚ) (st : MonitorState)
    (raw : List Nat) (now : ℚ) (st' : MonitorState)
    (hsafe : bindingSafe pf st.binding)
    (hok : processCarrierEvent pf st raw now = .ok st') :
    bindingSafe pf st'.binding := by
  rw [processCarrierEvent] at hok
  split_ifs at hok
  · cases hok
    exact hsafe
  · dsimp only at hok
    repeat' split at hok
    all_goals cases hok
    all_goals simp_all [bindingSafe]
  · cases hok
    exact hsafe

/-- Witness for C6 (amended), exercising the CARRIER conjunct, the
successful-parse conjunct, the parse-failure conjunct and the
token-absent conjunct at concrete events. -/
theorem carrierEventProcessing_witness :
    (processCarrierEvent pfNone ⟨false, 9, 9, .unbound⟩ CARRIER_EV 1
      = .ok ⟨true, 9, 9, .unbound⟩) ∧
    (processCarrierEvent (fun _ => some (5/2)) ⟨true, 9, 9, .unbound⟩
        (NOCARRIER_EV ++ (32 :: (CONFIDENCE ++ [61, 50]))) 3
      = .ok ⟨false, 5/2, 3, .floatVal (5/2)⟩) ∧
    (processCarrierEvent pfNone ⟨true, 9, 9, .unbound⟩
        (NOCARRIER_EV ++ (32 :: (CONFIDENCE ++ [61, 50]))) 3
      = .ok ⟨false, 9, 9, .bytesVal [50]⟩) ∧
    (processCarrierEvent pfNone ⟨true, 9, 9, .unbound⟩ NOCARRIER_EV 3
      = .ok ⟨false, 9, 9, .unbound⟩) := by
  refine ⟨?_, ?_, ?_, ?_⟩
  · exact (carrierEventProcessing pfNone ⟨false, 9, 9, .unbound⟩ CARRIER_EV 1).1 (by decide)
  · exact ((((carrierEventProcessing (fun _ => some (5/2)) ⟨true, 9, 9, .unbound⟩
      (NOCARRIER_EV ++ (32 :: (CONFIDENCE ++ [61, 50]))) 3).2 (by decide)).1
      (CONFIDENCE ++ [61, 50]) (by decide)).1 CONFIDENCE [50] [] (by decide)).1 (5/2) rfl
  · exact ((((carrierEventProcessing pfNone ⟨true, 9, 9, .unbound⟩
      (NOCARRIER_EV ++ (32 :: (CONFIDENCE ++ [61, 50]))) 3).2 (by decide)).1
      (CONFIDENCE ++ [61, 50]) (by decide)).1 CONFIDENCE [50] [] (by decide)).2 rfl
  · exact ((carrierEventProcessing pfNone ⟨true, 9, 9, .unbound⟩ NOCARRIER_EV 3).2
      (by decide)).2 (by decide) trivial

end Fskmodem
